import Mathlib

/-!
Shallow embedding of the date/time core of the kiokkyu repository:

* `parseDateTime` / `parseRepeatPattern` from `lib/dateParser.ts`
* `rescheduleRepeatingReminder` (the recurrence computation) from `lib/db.ts`

Modelling conventions:

* A JavaScript `Date` time value is modelled as an integer count of
  milliseconds since the Unix epoch (`Int`), idealising IEEE-754 doubles by
  exact integers (the spec's data model is "timestamp", and no claim touches
  the float-precision / Invalid-Date corner).
* The host local timezone is modelled as UTC (a fixed-offset zone with
  `getTimezoneOffset() = 0`), so `offsetDiff = 540` minutes in
  `parseDateTime`; the source's shift trick then makes every local field
  operation act on JST civil fields, exactly as the spec's fixed UTC+9 civil
  timezone prescribes.
* ECMAScript `MakeDay` / field extraction are the proleptic Gregorian
  calendar; they are embedded by the standard civil-from-days /
  days-from-civil integer algorithms below.  `Int` division `/` is Euclidean
  division, which for the positive divisors used here coincides with the
  floor division of the ECMAScript specification.
-/

def msPerDay : Int := 86400000

def msPerHour : Int := 3600000

def msPerMinute : Int := 60000

/-- Gregorian leap-year test (ECMAScript `DaysInYear`). -/
def isLeap (y : Int) : Bool := (y % 4 == 0 && y % 100 != 0) || y % 400 == 0

/-- Number of days in month `m` (1-based) of year `y`. -/
def daysInMonth (y m : Int) : Int :=
  if m = 2 then (if isLeap y then 29 else 28)
  else if m = 4 ∨ m = 6 ∨ m = 9 ∨ m = 11 then 30
  else 31

/-- Days from the era start (March 1 of year-of-era 0) to the start of
year-of-era `yoe` of the 400-year Gregorian cycle; shifted years run from
March 1 to the last day of the following February. -/
def ydOf (yoe : Int) : Int := 365 * yoe + yoe / 4 - yoe / 100

/-- Recover the year-of-era from a day-of-era (Hinnant's formula). -/
def yoeRec (D : Int) : Int := (D - D / 1460 + D / 36524 - D / 146096) / 365

/-- Day-of-shifted-year on which month `m` (civil 1-based, March = month 3 =
day 0 of the shifted year) starts. -/
def monthStart (m : Int) : Int := (153 * ((m + 9) % 12) + 2) / 5

/-- Day-of-era of day `d` of civil month `m` in year-of-era `yoe`; linear in
`d`, so out-of-range `d` denotes day offsets into neighbouring months. -/
def doeOf (yoe m d : Int) : Int := ydOf yoe + monthStart m + d - 1

/-- Length in days of shifted year `y` (March of civil `y` + era origin
through February of civil `y + 1`). -/
def lenOf (y : Int) : Int := if isLeap (y + 1) then 366 else 365

/-- Month-part helper of the day-of-shifted-year decomposition. -/
def mpOf (doy : Int) : Int := (5 * doy + 2) / 153

/-- Civil month of a day-of-shifted-year. -/
def mOf (doy : Int) : Int := mpOf doy + (if mpOf doy < 10 then 3 else -9)

/-- Civil day-of-month of a day-of-shifted-year. -/
def dOf (doy : Int) : Int := doy - (153 * mpOf doy + 2) / 5 + 1

/-- Civil date (proleptic Gregorian). -/
structure Civil where
  year : Int
  month : Int
  day : Int
deriving DecidableEq, Repr

/-- Inverse of `doeOf` on one 400-year cycle: civil date of day-of-era
`doe ∈ [0, 146097)`, with the year given as year-of-era plus the March
adjustment. -/
def civilCore (doe : Int) : Civil :=
  let yoe := yoeRec doe
  let doy := doe - ydOf yoe
  ⟨yoe + (if mOf doy ≤ 2 then 1 else 0), mOf doy, dOf doy⟩

/-- Civil date of epoch day number `z` (day 0 = 1970-01-01). -/
def civilFromDays (z : Int) : Civil :=
  let zz := z + 719468
  let c := civilCore (zz % 146097)
  ⟨c.year + 400 * (zz / 146097), c.month, c.day⟩

/-- Epoch day number of civil date `(y, m, d)`; `m` must be in 1..12, `d` is
an unconstrained offset (day 0 is the last day of the previous month, etc.),
matching ECMAScript `MakeDay` overflow behaviour. -/
def daysFromCivil (y m d : Int) : Int :=
  let y' := if m ≤ 2 then y - 1 else y
  (y' / 400) * 146097 + doeOf (y' % 400) m d - 719468

/-! ### ECMAScript `Date` operations

The local timezone of the host is modelled as UTC (fixed offset, no DST), so
local field operations read and write UTC calendar fields.  `Day`,
`TimeWithinDay`, `MakeDay`, `MakeDate` and the field getters/setters follow
the ECMAScript specification, whose calendar is the proleptic Gregorian
calendar embodied by `civilFromDays` / `daysFromCivil`. -/

def jsDay (t : Int) : Int := t / msPerDay

def timeWithinDay (t : Int) : Int := t % msPerDay

def dateFields (t : Int) : Civil := civilFromDays (jsDay t)

def getFullYear (t : Int) : Int := (dateFields t).year

/-- JS `getMonth()` is 0-based. -/
def getMonth0 (t : Int) : Int := (dateFields t).month - 1

def getDate (t : Int) : Int := (dateFields t).day

/-- ECMAScript `MakeDay(year, month, date)` with 0-based month; month and day
overflow roll into neighbouring years/months. -/
def makeDay (y mo d : Int) : Int := daysFromCivil (y + mo / 12) (mo % 12 + 1) d

def jsSetDate (t n : Int) : Int :=
  makeDay (getFullYear t) (getMonth0 t) n * msPerDay + timeWithinDay t

def jsSetMonth (t mo : Int) : Int :=
  makeDay (getFullYear t) mo (getDate t) * msPerDay + timeWithinDay t

def jsSetFullYear (t y : Int) : Int :=
  makeDay y (getMonth0 t) (getDate t) * msPerDay + timeWithinDay t

/-- JS `t.setHours(h, mi, 0, 0)`. -/
def jsSetHours (t h mi : Int) : Int :=
  jsDay t * msPerDay + (h * msPerHour + mi * msPerMinute)

/-- JS `new Date(y, mo, d)` (constructor quirk: a year in 0..99 means
1900 + y). -/
def jsNewDateYMD (y mo d : Int) : Int :=
  makeDay (if 0 ≤ y ∧ y ≤ 99 then y + 1900 else y) mo d * msPerDay

/-! ### String pattern matching from `lib/dateParser.ts`

The regular expressions of the source are anchored patterns over digit
groups and fixed characters; `\d+` is a maximal digit run, embedded by
`List.span Char.isDigit`, and `parseInt` on a digit run is `digitsToNat`. -/

def digitsToNat (cs : List Char) : Nat :=
  cs.foldl (fun a c => a * 10 + (c.toNat - 48)) 0

/-- Match `^(\d+)<suffix>$`, returning the parsed digit group. -/
def matchNumSuffix (cs suffix : List Char) : Option Nat :=
  let p := cs.span Char.isDigit
  if p.1 ≠ [] ∧ p.2 = suffix then some (digitsToNat p.1) else none

/-- Match `^(\d+)<mid>(\d+)<suffix>$`, returning both digit groups. -/
def matchNumMidNum (cs : List Char) (mid : Char) (suffix : List Char) :
    Option (Nat × Nat) :=
  let p := cs.span Char.isDigit
  match p.2 with
  | [] => none
  | c :: rest =>
    if p.1 ≠ [] ∧ c = mid then
      let q := rest.span Char.isDigit
      if q.1 ≠ [] ∧ q.2 = suffix then some (digitsToNat p.1, digitsToNat q.1)
      else none
    else none

/-- Match `^(\d{4})年(\d+)月(\d+)日$`. -/
def matchYMD (cs : List Char) : Option (Nat × Nat × Nat) :=
  match cs with
  | a :: b :: c :: d :: e :: rest =>
    if a.isDigit ∧ b.isDigit ∧ c.isDigit ∧ d.isDigit ∧ e = '年' then
      match matchNumMidNum rest '月' ['日'] with
      | some (mo, dd) => some (digitsToNat [a, b, c, d], mo, dd)
      | none => none
    else none
  | _ => none

/-! ### `parseDateTime` from `lib/dateParser.ts`

`now` is the instant read by `new Date()` at invocation — the reference
instant of the spec.  With the host zone modelled as UTC,
`offsetDiff = 540` minutes and `jstNow = now + 9h`.  Every operation inside
the source's `try` block is total in ECMAScript (regex matching, `parseInt`
and `Date` arithmetic do not throw), so the `catch` branch is unreachable
and the embedding is a total function; `unknownFormatError` is the message
that branch would produce. -/

def jstOffsetMs : Int := 540 * 60 * 1000

def pastDateError : String := "過去の日時は設定できないよ！未来の日時を指定してね 📅"

def unknownFormatError : String :=
  "日時の形式がよくわからなかった😅\n例：「明日 9時」「12月25日 15時30分」「3日後 昼」"

structure ParsedDateTime where
  date : Int
  success : Bool
  error : Option String
deriving DecidableEq, Repr

/-- The date-phrase branch chain of `parseDateTime`, producing `targetDate`. -/
def parseDateStr (dateStr : String) (jstNow : Int) : Int :=
  if dateStr = "今日" ∨ dateStr = "きょう" then jstNow
  else if dateStr = "明日" ∨ dateStr = "あした" then
    jsSetDate jstNow (getDate jstNow + 1)
  else if dateStr = "明後日" ∨ dateStr = "あさって" then
    jsSetDate jstNow (getDate jstNow + 2)
  else if dateStr = "来週" ∨ dateStr = "らいしゅう" then
    jsSetDate jstNow (getDate jstNow + 7)
  else if dateStr = "再来週" ∨ dateStr = "さらいしゅう" then
    jsSetDate jstNow (getDate jstNow + 14)
  else
    match matchNumSuffix dateStr.toList ['日', '後'] with
    | some n => jsSetDate jstNow (getDate jstNow + (n : Int))
    | none =>
      match matchNumSuffix dateStr.toList ['日'] with
      | some n =>
        let t1 := jsSetDate jstNow (n : Int)
        if t1 < jstNow then jsSetMonth t1 (getMonth0 t1 + 1) else t1
      | none =>
        match matchNumMidNum dateStr.toList '月' ['日'] with
        | some (mo, dd) =>
          let t1 := jsSetMonth jstNow ((mo : Int) - 1)
          let t2 := jsSetDate t1 (dd : Int)
          if t2 < jstNow then jsSetFullYear t2 (getFullYear t2 + 1) else t2
        | none =>
          match matchYMD dateStr.toList with
          | some (yy, mo, dd) => jsNewDateYMD (yy : Int) ((mo : Int) - 1) (dd : Int)
          | none => jstNow

/-- The time-phrase branch chain of `parseDateTime`, producing
`(hour, minute)`; both default to `(9, 0)`. -/
def parseTimeStr (timeStr : Option String) : Int × Int :=
  match timeStr with
  | none => (9, 0)
  | some t =>
    if t = "朝" ∨ t = "あさ" then (9, 0)
    else if t = "昼" ∨ t = "ひる" ∨ t = "お昼" ∨ t = "おひる" then (12, 0)
    else if t = "午後" ∨ t = "ごご" then (15, 0)
    else if t = "夕方" ∨ t = "ゆうがた" then (18, 0)
    else if t = "夜" ∨ t = "よる" then (18, 0)
    else if t = "深夜" ∨ t = "しんや" then (22, 0)
    else
      match matchNumSuffix t.toList ['時'] with
      | some h => ((h : Int), 0)
      | none =>
        match matchNumMidNum t.toList '時' ['分'] with
        | some (h, mi) => ((h : Int), (mi : Int))
        | none =>
          match matchNumMidNum t.toList ':' [] with
          | some (h, mi) => ((h : Int), (mi : Int))
          | none => (9, 0)

def parseDateTime (dateStr : String) (timeStr : Option String) (now : Int) :
    ParsedDateTime :=
  let jstNow := now + jstOffsetMs
  let targetDate := parseDateStr dateStr jstNow
  let hm := parseTimeStr timeStr
  let withTime := jsSetHours targetDate hm.1 hm.2
  let utcDate := withTime - jstOffsetMs
  if utcDate ≤ now then ⟨utcDate, false, some pastDateError⟩
  else ⟨utcDate, true, none⟩

/-! ### `parseRepeatPattern` from `lib/dateParser.ts` -/

/-- JS `String.prototype.includes`: substring membership. -/
def hasSubstr : List Char → List Char → Bool
  | [], pat => pat.isEmpty
  | c :: t, pat => pat.isPrefixOf (c :: t) || hasSubstr t pat

def strIncludes (s pat : String) : Bool := hasSubstr s.toList pat.toList

def parseRepeatPattern (text : String) : Option String :=
  if strIncludes text "毎日" || strIncludes text "まいにち" then some "daily"
  else if strIncludes text "毎週" || strIncludes text "まいしゅう" then some "weekly"
  else if strIncludes text "毎月" || strIncludes text "まいつき" then some "monthly"
  else none

/-! ### `rescheduleRepeatingReminder` from `lib/db.ts`

Only the scheduling computation is modelled: the `switch` over
`repeat_pattern` (JS `switch` is a chain of strict-equality tests) computes
the next `remind_at` from the previous one, or `none` for the `default`
branch.  The surrounding SQL effects are modelled as the record update they
perform: the `UPDATE ... SET remind_at = $2, status = 'active'` on a next
occurrence, and `completeReminder` (`UPDATE ... SET status = 'completed'`,
which does not touch `remind_at`) otherwise. -/

structure Reminder where
  remind_at : Int
  status : String
  repeat_pattern : Option String
deriving DecidableEq, Repr

def advanceRemindAt (t : Int) : Option String → Option Int
  | some c =>
    if c = "daily" then some (jsSetDate t (getDate t + 1))
    else if c = "weekly" then some (jsSetDate t (getDate t + 7))
    else if c = "monthly" then some (jsSetMonth t (getMonth0 t + 1))
    else none
  | none => none

def rescheduleRepeatingReminder (r : Reminder) : Reminder :=
  match advanceRemindAt r.remind_at r.repeat_pattern with
  | some t => { r with remind_at := t, status := "active" }
  | none => { r with status := "completed" }

/-- The UTC instant computed by `parseDateTime` before the past-date check. -/
def resolvedUtc (dateStr : String) (timeStr : Option String) (now : Int) : Int :=
  jsSetHours (parseDateStr dateStr (now + jstOffsetMs))
    (parseTimeStr timeStr).1 (parseTimeStr timeStr).2 - jstOffsetMs

/-- Successor month in civil (year, month) ordering. -/
def nextYM (y m : Int) : Int × Int := if m = 12 then (y + 1, 1) else (y, m + 1)

/-- The `monthly` branch of `rescheduleRepeatingReminder`:
`nextRemindAt.setMonth(nextRemindAt.getMonth() + 1)`. -/
def advanceMonthly (t : Int) : Int := jsSetMonth t (getMonth0 t + 1)

-- Sanity checks of the embedded parser against hand-computed instants
-- (reference instant 1760151600000 is 2025-10-11 12:00 JST).

-- Sanity checks of the calendar kernel.
example : daysFromCivil 1970 1 1 = 0 := by decide
example : civilFromDays 0 = ⟨1970, 1, 1⟩ := by decide
example : civilFromDays 20372 = ⟨2025, 10, 11⟩ := by decide
example : daysFromCivil 2025 10 11 = 20372 := by decide
example : civilFromDays 11016 = ⟨2000, 2, 29⟩ := by decide

/-! ### Correctness of the calendar kernel -/

theorem yoeRec_mono {a b : Int} (h : a ≤ b) : yoeRec a ≤ yoeRec b := by
  have hin : a - a / 1460 + a / 36524 - a / 146096 ≤
      b - b / 1460 + b / 36524 - b / 146096 := by omega
  exact Int.ediv_le_ediv (by norm_num) hin

set_option maxRecDepth 8000

theorem yoeRec_yd_nat : ∀ y : Nat, y < 400 → yoeRec (ydOf (y : Int)) = (y : Int) := by
  decide

theorem yoeRec_ydTop_nat :
    ∀ y : Nat, y < 400 → yoeRec (ydOf (y : Int) + lenOf (y : Int) - 1) = (y : Int) := by
  decide

theorem ydOf_step_nat :
    ∀ y : Nat, y < 399 → ydOf ((y : Int) + 1) = ydOf (y : Int) + lenOf (y : Int) := by
  decide

theorem month_table_nat :
    ∀ doy : Nat, doy < 366 →
      1 ≤ mOf (doy : Int) ∧ mOf (doy : Int) ≤ 12 ∧ 1 ≤ dOf (doy : Int) ∧
      dOf (doy : Int) ≤ 31 ∧ monthStart (mOf (doy : Int)) + dOf (doy : Int) - 1 = (doy : Int) := by
  decide

theorem month_table_inv_nat :
    ∀ m : Nat, m < 12 → ∀ d : Nat, d < 31 →
      (d : Int) + 1 ≤ (if (m : Int) + 1 = 2 then 29 else daysInMonth 0 ((m : Int) + 1)) →
      0 ≤ monthStart ((m : Int) + 1) + (d : Int) ∧
      monthStart ((m : Int) + 1) + (d : Int) ≤
        (if (m : Int) + 1 = 2 ∧ (d : Int) + 1 = 29 then 365 else 364) ∧
      mOf (monthStart ((m : Int) + 1) + (d : Int)) = (m : Int) + 1 ∧
      dOf (monthStart ((m : Int) + 1) + (d : Int)) = (d : Int) + 1 := by
  decide

theorem yoeRec_yd {y : Int} (h0 : 0 ≤ y) (h1 : y ≤ 399) : yoeRec (ydOf y) = y := by
  lift y to ℕ using h0
  exact yoeRec_yd_nat y (by omega)

theorem yoeRec_ydTop {y : Int} (h0 : 0 ≤ y) (h1 : y ≤ 399) :
    yoeRec (ydOf y + lenOf y - 1) = y := by
  lift y to ℕ using h0
  exact yoeRec_ydTop_nat y (by omega)

theorem ydOf_step {y : Int} (h0 : 0 ≤ y) (h1 : y ≤ 398) : ydOf (y + 1) = ydOf y + lenOf y := by
  lift y to ℕ using h0
  exact ydOf_step_nat y (by omega)

theorem lenOf_bounds (y : Int) : 365 ≤ lenOf y ∧ lenOf y ≤ 366 := by
  unfold lenOf
  split <;> omega

theorem yoeRec_interval {D : Int} (h0 : 0 ≤ D) (h1 : D < 146097) :
    0 ≤ yoeRec D ∧ yoeRec D ≤ 399 ∧ ydOf (yoeRec D) ≤ D ∧
    D < ydOf (yoeRec D) + lenOf (yoeRec D) := by
  have hlow : 0 ≤ yoeRec D := by
    have h := yoeRec_mono h0
    have hz : yoeRec 0 = 0 := by decide
    omega
  have hhigh : yoeRec D ≤ 399 := by
    have h := yoeRec_mono (show D ≤ 146096 by omega)
    have hz : yoeRec 146096 = 399 := by decide
    omega
  refine ⟨hlow, hhigh, ?_, ?_⟩
  · by_contra hcon
    push_neg at hcon
    rcases eq_or_lt_of_le hlow with he | hpos
    · have hz : ydOf (yoeRec D) = 0 := by rw [← he]; decide
      omega
    · have hstep : ydOf (yoeRec D - 1 + 1) = ydOf (yoeRec D - 1) + lenOf (yoeRec D - 1) :=
        ydOf_step (by omega) (by omega)
      have e1 : yoeRec D - 1 + 1 = yoeRec D := by ring
      rw [e1] at hstep
      have htop : yoeRec (ydOf (yoeRec D - 1) + lenOf (yoeRec D - 1) - 1) = yoeRec D - 1 :=
        yoeRec_ydTop (by omega) (by omega)
      have hmono := yoeRec_mono (show D ≤ ydOf (yoeRec D - 1) + lenOf (yoeRec D - 1) - 1 by omega)
      omega
  · by_contra hcon
    push_neg at hcon
    rcases eq_or_lt_of_le hhigh with he | hlt
    · have htop399 : ydOf (yoeRec D) + lenOf (yoeRec D) = 146097 := by rw [he]; decide
      omega
    · have hstep : ydOf (yoeRec D + 1) = ydOf (yoeRec D) + lenOf (yoeRec D) :=
        ydOf_step (by omega) (by omega)
      have hmono := yoeRec_mono (show ydOf (yoeRec D + 1) ≤ D by omega)
      have hlo : yoeRec (ydOf (yoeRec D + 1)) = yoeRec D + 1 := yoeRec_yd (by omega) (by omega)
      omega

theorem month_table {doy : Int} (h0 : 0 ≤ doy) (h1 : doy < 366) :
    1 ≤ mOf doy ∧ mOf doy ≤ 12 ∧ 1 ≤ dOf doy ∧ dOf doy ≤ 31 ∧
    monthStart (mOf doy) + dOf doy - 1 = doy := by
  lift doy to ℕ using h0
  exact month_table_nat doy (by omega)

theorem month_table_inv {m d : Int} (hm : 1 ≤ m) (hm2 : m ≤ 12) (hd : 1 ≤ d)
    (hcap : d ≤ (if m = 2 then 29 else daysInMonth 0 m)) :
    0 ≤ monthStart m + d - 1 ∧
    monthStart m + d - 1 ≤ (if m = 2 ∧ d = 29 then 365 else 364) ∧
    mOf (monthStart m + d - 1) = m ∧ dOf (monthStart m + d - 1) = d := by
  have hd31 : d ≤ 31 := by
    by_cases h2 : m = 2
    · simp [h2] at hcap; omega
    · simp [h2] at hcap
      unfold daysInMonth at hcap
      split at hcap <;> omega
  obtain ⟨mn, hmn⟩ : ∃ mn : ℕ, (mn : Int) = m - 1 := ⟨(m - 1).toNat, Int.toNat_of_nonneg (by omega)⟩
  obtain ⟨dn, hdn⟩ : ∃ dn : ℕ, (dn : Int) = d - 1 := ⟨(d - 1).toNat, Int.toNat_of_nonneg (by omega)⟩
  have := month_table_inv_nat mn (by omega) dn (by omega)
    (by rw [hmn, hdn]; simpa [show m - 1 + 1 = m by ring] using hcap)
  rw [hmn, hdn] at this
  have e1 : m - 1 + 1 = m := by ring
  rw [e1] at this
  refine ⟨by omega, ?_, ?_, ?_⟩
  · have e2 : monthStart m + (d - 1) = monthStart m + d - 1 := by ring
    rw [e2] at this
    rcases this with ⟨-, hb, -, -⟩
    by_cases hmd : m = 2 ∧ d = 29
    · simp [hmd] at hb ⊢; omega
    · have : ¬(m = 2 ∧ d - 1 + 1 = 29) := by
        intro hc; exact hmd ⟨hc.1, by omega⟩
      simp [hmd] at *
      omega
  · have e2 : monthStart m + (d - 1) = monthStart m + d - 1 := by ring
    rw [e2] at this
    exact this.2.2.1
  · have e2 : monthStart m + (d - 1) = monthStart m + d - 1 := by ring
    rw [e2] at this
    have := this.2.2.2
    omega

theorem daysInMonth_year_irrel (y y' : Int) {m : Int} (h : m ≠ 2) :
    daysInMonth y m = daysInMonth y' m := by
  unfold daysInMonth
  simp [h]

theorem civilCore_def (D : Int) :
    civilCore D =
      ⟨yoeRec D + (if mOf (D - ydOf (yoeRec D)) ≤ 2 then 1 else 0),
       mOf (D - ydOf (yoeRec D)), dOf (D - ydOf (yoeRec D))⟩ := rfl

theorem isLeap_add_400 (a k : Int) : isLeap (a + 400 * k) = isLeap a := by
  unfold isLeap
  have h4 : (a + 400 * k) % 4 = a % 4 := by omega
  have h100 : (a + 400 * k) % 100 = a % 100 := by omega
  have h400 : (a + 400 * k) % 400 = a % 400 := by omega
  rw [h4, h100, h400]

theorem daysInMonth_add_400 (y k m : Int) : daysInMonth (y + 400 * k) m = daysInMonth y m := by
  unfold daysInMonth
  rw [isLeap_add_400]

theorem civilCore_doeOf {yoe m d : Int} (h0 : 0 ≤ yoe) (h1 : yoe ≤ 399)
    (hm : 1 ≤ m) (hm2 : m ≤ 12) (hd : 1 ≤ d)
    (hd2 : d ≤ daysInMonth (yoe + (if m ≤ 2 then 1 else 0)) m) :
    civilCore (doeOf yoe m d) = ⟨yoe + (if m ≤ 2 then 1 else 0), m, d⟩ := by
  have hcap : d ≤ (if m = 2 then 29 else daysInMonth 0 m) := by
    by_cases h2 : m = 2
    · rw [if_pos h2]
      subst h2
      have h22 : (if (2:Int) ≤ 2 then (1:Int) else 0) = 1 := by norm_num
      rw [h22] at hd2
      unfold daysInMonth at hd2
      rw [if_pos rfl] at hd2
      split at hd2 <;> omega
    · rw [if_neg h2]
      rw [daysInMonth_year_irrel _ 0 h2] at hd2
      exact hd2
  obtain ⟨hmd0, hmd1, hmOf, hdOf⟩ := month_table_inv hm hm2 hd hcap
  have hlen : monthStart m + d - 1 < lenOf yoe := by
    by_cases hmd : m = 2 ∧ d = 29
    · have hleap : isLeap (yoe + 1) = true := by
        obtain ⟨hm2', hd29⟩ := hmd
        subst hm2'
        subst hd29
        have h22 : (if (2:Int) ≤ 2 then (1:Int) else 0) = 1 := by norm_num
        rw [h22] at hd2
        unfold daysInMonth at hd2
        rw [if_pos rfl] at hd2
        by_contra hnl
        simp only [Bool.not_eq_true] at hnl
        rw [hnl] at hd2
        simp at hd2
      have hl6 : lenOf yoe = 366 := by
        unfold lenOf
        rw [hleap]
        simp
      rw [if_pos hmd] at hmd1
      omega
    · rw [if_neg hmd] at hmd1
      have := lenOf_bounds yoe
      omega
  have hD : doeOf yoe m d = ydOf yoe + (monthStart m + d - 1) := by
    unfold doeOf
    ring
  have hge : ydOf yoe ≤ ydOf yoe + (monthStart m + d - 1) := by omega
  have hle : ydOf yoe + (monthStart m + d - 1) ≤ ydOf yoe + lenOf yoe - 1 := by omega
  have hrec : yoeRec (ydOf yoe + (monthStart m + d - 1)) = yoe := by
    have l1 := yoeRec_mono hge
    have l2 := yoeRec_mono hle
    rw [yoeRec_yd h0 h1] at l1
    rw [yoeRec_ydTop h0 h1] at l2
    omega
  rw [hD, civilCore_def, hrec]
  have hdoy : ydOf yoe + (monthStart m + d - 1) - ydOf yoe = monthStart m + d - 1 := by ring
  rw [hdoy, hmOf, hdOf]

theorem doeOf_civilCore {D : Int} (h0 : 0 ≤ D) (h1 : D < 146097) :
    1 ≤ (civilCore D).month ∧ (civilCore D).month ≤ 12 ∧
    1 ≤ (civilCore D).day ∧ (civilCore D).day ≤ 31 ∧
    0 ≤ (civilCore D).year - (if (civilCore D).month ≤ 2 then 1 else 0) ∧
    (civilCore D).year - (if (civilCore D).month ≤ 2 then 1 else 0) ≤ 399 ∧
    doeOf ((civilCore D).year - (if (civilCore D).month ≤ 2 then 1 else 0))
      (civilCore D).month (civilCore D).day = D := by
  obtain ⟨hy0, hy1, hlo, hhi⟩ := yoeRec_interval h0 h1
  have hlen := lenOf_bounds (yoeRec D)
  have hdoy0 : 0 ≤ D - ydOf (yoeRec D) := by omega
  have hdoy1 : D - ydOf (yoeRec D) < 366 := by omega
  obtain ⟨hm1, hm2, hd1, hd2, hms⟩ := month_table hdoy0 hdoy1
  rw [civilCore_def]
  dsimp only
  have hcansub : yoeRec D + (if mOf (D - ydOf (yoeRec D)) ≤ 2 then 1 else 0) -
      (if mOf (D - ydOf (yoeRec D)) ≤ 2 then 1 else 0) = yoeRec D := by ring
  rw [hcansub]
  refine ⟨hm1, hm2, hd1, hd2, hy0, hy1, ?_⟩
  unfold doeOf
  omega

theorem civilFromDays_def (z : Int) :
    civilFromDays z =
      ⟨(civilCore ((z + 719468) % 146097)).year + 400 * ((z + 719468) / 146097),
       (civilCore ((z + 719468) % 146097)).month,
       (civilCore ((z + 719468) % 146097)).day⟩ := rfl

theorem daysFromCivil_def (y m d : Int) :
    daysFromCivil y m d =
      ((if m ≤ 2 then y - 1 else y) / 400) * 146097 +
        doeOf ((if m ≤ 2 then y - 1 else y) % 400) m d - 719468 := rfl

theorem doeOf_bounds {yoe m d : Int} (h0 : 0 ≤ yoe) (h1 : yoe ≤ 399)
    (hm : 1 ≤ m) (hm2 : m ≤ 12) (hd : 1 ≤ d)
    (hcap : d ≤ (if m = 2 then 29 else daysInMonth 0 m)) :
    0 ≤ doeOf yoe m d ∧ doeOf yoe m d < 146097 := by
  obtain ⟨hmd0, hmd1, -, -⟩ := month_table_inv hm hm2 hd hcap
  have hmd365 : monthStart m + d - 1 ≤ 365 := by
    split at hmd1 <;> omega
  have hyd : 0 ≤ ydOf yoe ∧ ydOf yoe ≤ 145731 := by
    unfold ydOf
    omega
  unfold doeOf
  omega

/-- Round trip: converting an epoch day number to a civil date and back is
the identity. -/
theorem daysFromCivil_civilFromDays (z : Int) :
    daysFromCivil (civilFromDays z).year (civilFromDays z).month (civilFromDays z).day = z := by
  have h0 : 0 ≤ (z + 719468) % 146097 := Int.emod_nonneg _ (by norm_num)
  have h1 : (z + 719468) % 146097 < 146097 := Int.emod_lt_of_pos _ (by norm_num)
  obtain ⟨hm1, hm2, hd1, hd2, hy0, hy1, hdoe⟩ := doeOf_civilCore h0 h1
  rw [civilFromDays_def]
  dsimp only
  rw [daysFromCivil_def]
  by_cases hc : (civilCore ((z + 719468) % 146097)).month ≤ 2
  · rw [if_pos hc]
    rw [if_pos hc] at hy0 hy1 hdoe
    have hmod : ((civilCore ((z + 719468) % 146097)).year + 400 * ((z + 719468) / 146097) - 1)
        % 400 = (civilCore ((z + 719468) % 146097)).year - 1 := by omega
    have hdiv : ((civilCore ((z + 719468) % 146097)).year + 400 * ((z + 719468) / 146097) - 1)
        / 400 = (z + 719468) / 146097 := by omega
    rw [hmod, hdiv, hdoe]
    omega
  · rw [if_neg hc]
    rw [if_neg hc] at hy0 hy1 hdoe
    have hmod : ((civilCore ((z + 719468) % 146097)).year + 400 * ((z + 719468) / 146097))
        % 400 = (civilCore ((z + 719468) % 146097)).year - 0 := by omega
    have hdiv : ((civilCore ((z + 719468) % 146097)).year + 400 * ((z + 719468) / 146097))
        / 400 = (z + 719468) / 146097 := by omega
    rw [hmod, hdiv, hdoe]
    omega

/-- Round trip: a valid civil date survives conversion to an epoch day number
and back. -/
theorem civilFromDays_daysFromCivil {y m d : Int} (hm : 1 ≤ m) (hm2 : m ≤ 12)
    (hd : 1 ≤ d) (hd2 : d ≤ daysInMonth y m) :
    civilFromDays (daysFromCivil y m d) = ⟨y, m, d⟩ := by
  rw [daysFromCivil_def]
  by_cases hc : m ≤ 2
  · rw [if_pos hc]
    have hyoe0 : 0 ≤ (y - 1) % 400 := Int.emod_nonneg _ (by norm_num)
    have hyoe1 : (y - 1) % 400 ≤ 399 := by
      have := Int.emod_lt_of_pos (y - 1) (show (0:Int) < 400 by norm_num)
      omega
    have hy : y = ((y - 1) % 400 + 1) + 400 * ((y - 1) / 400) := by omega
    rw [hy] at hd2
    rw [daysInMonth_add_400] at hd2
    have hcap : d ≤ (if m = 2 then 29 else daysInMonth 0 m) := by
      by_cases h2 : m = 2
      · rw [if_pos h2]
        subst h2
        unfold daysInMonth at hd2
        rw [if_pos rfl] at hd2
        split at hd2 <;> omega
      · rw [if_neg h2]
        rw [daysInMonth_year_irrel _ 0 h2] at hd2
        exact hd2
    have hcap' : d ≤ daysInMonth ((y - 1) % 400 + (if m ≤ 2 then 1 else 0)) m := by
      rw [if_pos hc]
      exact hd2
    have hcore := civilCore_doeOf hyoe0 hyoe1 hm hm2 hd hcap'
    rw [if_pos hc] at hcore
    obtain ⟨hb0, hb1⟩ := doeOf_bounds hyoe0 hyoe1 hm hm2 hd hcap
    rw [civilFromDays_def]
    have hmod : ((y - 1) / 400 * 146097 + doeOf ((y - 1) % 400) m d - 719468 + 719468)
        % 146097 = doeOf ((y - 1) % 400) m d := by omega
    have hdiv : ((y - 1) / 400 * 146097 + doeOf ((y - 1) % 400) m d - 719468 + 719468)
        / 146097 = (y - 1) / 400 := by omega
    rw [hmod, hdiv, hcore]
    dsimp only
    rw [Civil.mk.injEq]
    refine ⟨by omega, rfl, rfl⟩
  · rw [if_neg hc]
    have hyoe0 : 0 ≤ y % 400 := Int.emod_nonneg _ (by norm_num)
    have hyoe1 : y % 400 ≤ 399 := by
      have := Int.emod_lt_of_pos y (show (0:Int) < 400 by norm_num)
      omega
    have hy : y = y % 400 + 400 * (y / 400) := by omega
    rw [hy] at hd2
    rw [daysInMonth_add_400] at hd2
    have h2 : m ≠ 2 := by omega
    have hcap : d ≤ (if m = 2 then 29 else daysInMonth 0 m) := by
      rw [if_neg h2]
      rw [daysInMonth_year_irrel _ 0 h2] at hd2
      exact hd2
    have hcap' : d ≤ daysInMonth (y % 400 + (if m ≤ 2 then 1 else 0)) m := by
      rw [if_neg hc]
      have e : y % 400 + 0 = y % 400 := by ring
      rw [e]
      exact hd2
    have hcore := civilCore_doeOf hyoe0 hyoe1 hm hm2 hd hcap'
    rw [if_neg hc] at hcore
    obtain ⟨hb0, hb1⟩ := doeOf_bounds hyoe0 hyoe1 hm hm2 hd hcap
    rw [civilFromDays_def]
    have hmod : (y / 400 * 146097 + doeOf (y % 400) m d - 719468 + 719468)
        % 146097 = doeOf (y % 400) m d := by omega
    have hdiv : (y / 400 * 146097 + doeOf (y % 400) m d - 719468 + 719468)
        / 146097 = y / 400 := by omega
    rw [hmod, hdiv, hcore]
    dsimp only
    rw [Civil.mk.injEq]
    refine ⟨by omega, rfl, rfl⟩

example : parseDateTime "明日" none 1760151600000 = ⟨1760227200000, true, none⟩ := by decide
example : parseDateTime "15日" none 1760151600000 = ⟨1760486400000, true, none⟩ := by decide
example : parseDateTime "5日" none 1760151600000 = ⟨1762300800000, true, none⟩ := by decide
example : parseDateTime "12月25日" none 1760151600000 = ⟨1766620800000, true, none⟩ := by
  decide
example :
    parseDateTime "2025年12月25日" (some "15時30分") 1760151600000 =
      ⟨1766644200000, true, none⟩ := by decide
example :
    parseDateTime "今日" (some "9時") 1760151600000 =
      ⟨1760140800000, false, some pastDateError⟩ := by decide
example : parseDateTime "12月25日" (some "9時") 1766718000000 = ⟨1798156800000, true, none⟩ := by
  decide
example : parseRepeatPattern "毎週月曜" = some "weekly" := by decide
example : advanceRemindAt 1736937000000 (some "daily") = some (1736937000000 + 86400000) := by
  decide
example : parseDateTime "2月15日" none 1738292400000 = ⟨1741996800000, true, none⟩ := by decide
example : parseDateTime "31日" none 1744254000000 = ⟨1746057600000, true, none⟩ := by decide
example : parseDateTime "きょう" (some "深夜") 1760151600000 = ⟨1760187600000, true, none⟩ := by
  decide
example : parseDateTime "3日後" (some "15:45") 1760151600000 = ⟨1760424300000, true, none⟩ := by
  decide
example : parseDateTime "来週" none 1760151600000 = ⟨1760745600000, true, none⟩ := by decide
example : parseDateTime "再来週" (some "よる") 1760151600000 = ⟨1761382800000, true, none⟩ := by
  decide
example : parseDateTime "0日" none 1760151600000 = ⟨1761782400000, true, none⟩ := by decide
example : parseDateTime "99月5日" none 1760151600000 = ⟨1993593600000, true, none⟩ := by decide
example :
    parseDateTime "0031年1月2日" (some "25時") 1760151600000 =
      ⟨-1230624000000, false, some pastDateError⟩ := by decide
example : parseDateTime "29日" none 1738292400000 = ⟨1740787200000, true, none⟩ := by decide
example :
    parseDateTime "nonsense" (some "x") 1760151600000 =
      ⟨1760140800000, false, some pastDateError⟩ := by decide

/-! ### Properties of the `Date` operation layer -/

theorem time_decomp (t : Int) :
    t = jsDay t * msPerDay + timeWithinDay t ∧ 0 ≤ timeWithinDay t ∧
    timeWithinDay t < msPerDay := by
  unfold jsDay timeWithinDay msPerDay
  omega

theorem jsDay_mk {D tod : Int} (h0 : 0 ≤ tod) (h1 : tod < msPerDay) :
    jsDay (D * msPerDay + tod) = D ∧ timeWithinDay (D * msPerDay + tod) = tod := by
  unfold jsDay timeWithinDay msPerDay at *
  omega

theorem daysFromCivil_add (y m d k : Int) :
    daysFromCivil y m (d + k) = daysFromCivil y m d + k := by
  rw [daysFromCivil_def, daysFromCivil_def]
  unfold doeOf
  ring

theorem fields_bounds (z : Int) :
    1 ≤ (civilFromDays z).month ∧ (civilFromDays z).month ≤ 12 ∧
    1 ≤ (civilFromDays z).day ∧ (civilFromDays z).day ≤ 31 := by
  have h0 : 0 ≤ (z + 719468) % 146097 := Int.emod_nonneg _ (by norm_num)
  have h1 : (z + 719468) % 146097 < 146097 := Int.emod_lt_of_pos _ (by norm_num)
  obtain ⟨hm1, hm2, hd1, hd2, -, -, -⟩ := doeOf_civilCore h0 h1
  rw [civilFromDays_def]
  exact ⟨hm1, hm2, hd1, hd2⟩

theorem makeDay_eq {mo : Int} (y d : Int) (h0 : 0 ≤ mo) (h1 : mo ≤ 11) :
    makeDay y mo d = daysFromCivil y (mo + 1) d := by
  unfold makeDay
  have e1 : mo / 12 = 0 := by omega
  have e2 : mo % 12 = mo := by omega
  rw [e1, e2]
  norm_num

/-- `t.setDate(t.getDate() + k)` adds exactly `k` days to the time value. -/
theorem jsSetDate_add (t k : Int) : jsSetDate t (getDate t + k) = t + k * msPerDay := by
  obtain ⟨hm1, hm2, hd1, hd2⟩ := fields_bounds (jsDay t)
  unfold jsSetDate getFullYear getMonth0 getDate dateFields
  rw [makeDay_eq _ _ (by omega) (by omega)]
  have e1 : (civilFromDays (jsDay t)).month - 1 + 1 = (civilFromDays (jsDay t)).month := by
    ring
  rw [e1, daysFromCivil_add]
  rw [daysFromCivil_civilFromDays (jsDay t)]
  obtain ⟨ht, h0, h1⟩ := time_decomp t
  ring_nf
  omega

theorem parseDateTime_eq (dateStr : String) (timeStr : Option String) (now : Int) :
    parseDateTime dateStr timeStr now =
      if resolvedUtc dateStr timeStr now ≤ now then
        ⟨resolvedUtc dateStr timeStr now, false, some pastDateError⟩
      else ⟨resolvedUtc dateStr timeStr now, true, none⟩ := rfl

/-- The month successor step of `setMonth(getMonth() + 1)`: when the current
day-of-month exists in the following month, the civil date moves to the same
day of the next month and the time of day is unchanged. -/
theorem jsSetMonth_next {t : Int}
    (hdim : (civilFromDays (jsDay t)).day ≤
      daysInMonth (nextYM (civilFromDays (jsDay t)).year (civilFromDays (jsDay t)).month).1
        (nextYM (civilFromDays (jsDay t)).year (civilFromDays (jsDay t)).month).2) :
    civilFromDays (jsDay (jsSetMonth t (getMonth0 t + 1))) =
      ⟨(nextYM (civilFromDays (jsDay t)).year (civilFromDays (jsDay t)).month).1,
       (nextYM (civilFromDays (jsDay t)).year (civilFromDays (jsDay t)).month).2,
       (civilFromDays (jsDay t)).day⟩ ∧
    timeWithinDay (jsSetMonth t (getMonth0 t + 1)) = timeWithinDay t := by
  obtain ⟨hm1, hm2, hd1, hd2⟩ := fields_bounds (jsDay t)
  obtain ⟨-, htod0, htod1⟩ := time_decomp t
  unfold jsSetMonth getMonth0 getFullYear getDate dateFields
  have e1 : (civilFromDays (jsDay t)).month - 1 + 1 = (civilFromDays (jsDay t)).month := by
    ring
  rw [e1]
  by_cases h12 : (civilFromDays (jsDay t)).month = 12
  · have hn : nextYM (civilFromDays (jsDay t)).year (civilFromDays (jsDay t)).month =
        ((civilFromDays (jsDay t)).year + 1, 1) := by
      unfold nextYM
      rw [if_pos h12]
    rw [hn] at hdim ⊢
    rw [h12]
    have hmk : makeDay (civilFromDays (jsDay t)).year 12 (civilFromDays (jsDay t)).day =
        daysFromCivil ((civilFromDays (jsDay t)).year + 1) 1 (civilFromDays (jsDay t)).day := by
      unfold makeDay
      norm_num
    rw [hmk]
    obtain ⟨hj, htw⟩ :=
      @jsDay_mk (daysFromCivil ((civilFromDays (jsDay t)).year + 1) 1 (civilFromDays (jsDay t)).day)
        (timeWithinDay t) htod0 htod1
    rw [hj, htw]
    refine ⟨?_, rfl⟩
    exact civilFromDays_daysFromCivil (by norm_num) (by norm_num) hd1 hdim
  · have hn : nextYM (civilFromDays (jsDay t)).year (civilFromDays (jsDay t)).month =
        ((civilFromDays (jsDay t)).year, (civilFromDays (jsDay t)).month + 1) := by
      unfold nextYM
      rw [if_neg h12]
    rw [hn] at hdim ⊢
    rw [makeDay_eq _ _ (by omega) (by omega)]
    obtain ⟨hj, htw⟩ :=
      @jsDay_mk (daysFromCivil (civilFromDays (jsDay t)).year ((civilFromDays (jsDay t)).month + 1)
        (civilFromDays (jsDay t)).day) (timeWithinDay t) htod0 htod1
    rw [hj, htw]
    refine ⟨?_, rfl⟩
    exact civilFromDays_daysFromCivil (by omega) (by omega) hd1 hdim

theorem setters_tod (t a : Int) :
    timeWithinDay (jsSetDate t a) = timeWithinDay t ∧
    timeWithinDay (jsSetMonth t a) = timeWithinDay t ∧
    timeWithinDay (jsSetFullYear t a) = timeWithinDay t := by
  unfold jsSetDate jsSetMonth jsSetFullYear timeWithinDay msPerDay
  omega

/-- C1: in the non-exceptional (and only reachable) code path, `parseDateTime`
returns `success = false` with the fixed past-date error message exactly when
the computed UTC instant is at or before the reference instant `now`, and
`success = true` exactly when it is strictly after `now`. -/
theorem claim1_past_date_rejection (dateStr : String) (timeStr : Option String) (now : Int) :
    (((parseDateTime dateStr timeStr now).success = false ∧
      (parseDateTime dateStr timeStr now).error = some pastDateError) ↔
      (parseDateTime dateStr timeStr now).date ≤ now) ∧
    ((parseDateTime dateStr timeStr now).success = true ↔
      now < (parseDateTime dateStr timeStr now).date) := by
  rw [parseDateTime_eq]
  by_cases h : resolvedUtc dateStr timeStr now ≤ now
  · rw [if_pos h]
    dsimp only
    constructor
    · simp [h]
    · simp
      omega
  · rw [if_neg h]
    dsimp only
    constructor
    · simp
      omega
    · simp
      omega

/-- C10: the `catch` branch of `parseDateTime` is unreachable — no input ever
yields the generic unparsable-format message, so the only failure mode is the
past-date rejection.  (Every operation in the `try` block is total in
ECMAScript, which is why the embedding is a total function.) -/
theorem claim10_no_format_error (dateStr : String) (timeStr : Option String) (now : Int) :
    (parseDateTime dateStr timeStr now).error ≠ some unknownFormatError ∧
    ((parseDateTime dateStr timeStr now).success = false →
      (parseDateTime dateStr timeStr now).error = some pastDateError) := by
  rw [parseDateTime_eq]
  by_cases h : resolvedUtc dateStr timeStr now ≤ now
  · rw [if_pos h]
    dsimp only
    refine ⟨?_, fun _ => rfl⟩
    intro hcon
    have he : pastDateError = unknownFormatError := by
      injection hcon
    exact absurd he (by decide)
  · rw [if_neg h]
    dsimp only
    exact ⟨by simp, by simp⟩

/-- C4: `parseDateTime` is a pure, deterministic function of the date phrase,
the time phrase and the reference instant: equal inputs give equal outputs. -/
theorem claim4_deterministic (d₁ d₂ : String) (t₁ t₂ : Option String) (n₁ n₂ : Int)
    (hd : d₁ = d₂) (ht : t₁ = t₂) (hn : n₁ = n₂) :
    parseDateTime d₁ t₁ n₁ = parseDateTime d₂ t₂ n₂ := by
  rw [hd, ht, hn]

theorem claim4_witness :
    parseDateTime "明日" (some "9時") 1760151600000 =
      parseDateTime "明日" (some "9時") 1760151600000 :=
  claim4_deterministic "明日" "明日" (some "9時") (some "9時") 1760151600000 1760151600000
    rfl rfl rfl

/-- C3: a `none` (or unrecognized) cadence always yields Finished: no next
occurrence is computed, the record is marked completed, and its fire
timestamp is left unchanged. -/
theorem claim3_none_finished (r : Reminder)
    (h : ∀ c, r.repeat_pattern = some c →
      c ≠ "daily" ∧ c ≠ "weekly" ∧ c ≠ "monthly") :
    advanceRemindAt r.remind_at r.repeat_pattern = none ∧
    rescheduleRepeatingReminder r = { r with status := "completed" } := by
  have hadv : advanceRemindAt r.remind_at r.repeat_pattern = none := by
    cases hp : r.repeat_pattern with
    | none => rfl
    | some c =>
      obtain ⟨h1, h2, h3⟩ := h c hp
      simp only [advanceRemindAt]
      rw [if_neg h1, if_neg h2, if_neg h3]
  refine ⟨hadv, ?_⟩
  unfold rescheduleRepeatingReminder
  rw [hadv]

theorem claim3_witness :
    advanceRemindAt 1736937000000 none = none ∧
    rescheduleRepeatingReminder ⟨1736937000000, "active", none⟩ =
      ⟨1736937000000, "completed", none⟩ :=
  claim3_none_finished ⟨1736937000000, "active", none⟩ (fun _ hc => nomatch hc)

/-- C7: for cadences daily, weekly and monthly the computed next occurrence
preserves the time of day (hour, minute, second and millisecond — the whole
millisecond offset within the civil day) exactly; the calendar date advances
by 1 day, 7 days, or one calendar month (same day-of-month whenever that day
exists in the successor month) respectively. -/
theorem claim7_no_drift (t : Int) (c : String) (t' : Int)
    (h : advanceRemindAt t (some c) = some t') :
    timeWithinDay t' = timeWithinDay t ∧
    (c = "daily" → t' = t + msPerDay) ∧
    (c = "weekly" → t' = t + 7 * msPerDay) ∧
    (c = "monthly" →
      (civilFromDays (jsDay t)).day ≤
          daysInMonth (nextYM (civilFromDays (jsDay t)).year (civilFromDays (jsDay t)).month).1
            (nextYM (civilFromDays (jsDay t)).year (civilFromDays (jsDay t)).month).2 →
        civilFromDays (jsDay t') =
          ⟨(nextYM (civilFromDays (jsDay t)).year (civilFromDays (jsDay t)).month).1,
           (nextYM (civilFromDays (jsDay t)).year (civilFromDays (jsDay t)).month).2,
           (civilFromDays (jsDay t)).day⟩) := by
  simp only [advanceRemindAt] at h
  split_ifs at h with h1 h2 h3
  · injection h with h'
    subst h1
    rw [← h', jsSetDate_add]
    refine ⟨?_, ?_, ?_, ?_⟩
    · unfold timeWithinDay msPerDay
      omega
    · intro hc
      ring
    · intro hc
      exact absurd hc (by decide)
    · intro hc
      exact absurd hc (by decide)
  · injection h with h'
    subst h2
    rw [← h', jsSetDate_add]
    refine ⟨?_, ?_, ?_, ?_⟩
    · unfold timeWithinDay msPerDay
      omega
    · intro hc
      exact absurd hc (by decide)
    · intro hc
      ring
    · intro hc
      exact absurd hc (by decide)
  · injection h with h'
    subst h3
    rw [← h']
    refine ⟨(setters_tod t (getMonth0 t + 1)).2.1, ?_, ?_, ?_⟩
    · intro hc
      exact absurd hc (by decide)
    · intro hc
      exact absurd hc (by decide)
    · intro hc hdim
      exact (jsSetMonth_next hdim).1

theorem claim7_witness :
    timeWithinDay 1737023400000 = timeWithinDay 1736937000000 :=
  (claim7_no_drift 1736937000000 "daily" 1737023400000 (by decide)).1

theorem hasSubstr_iff (hay pat : List Char) : hasSubstr hay pat = true ↔ pat <:+: hay := by
  induction hay with
  | nil =>
    simp [hasSubstr, List.isEmpty_iff]
  | cons c t ih =>
    simp only [hasSubstr, Bool.or_eq_true, ih, List.isPrefixOf_iff_prefix]
    exact (List.infix_cons_iff).symm

/-- C9: `parseRepeatPattern` returns `daily` exactly when a daily keyword
occurs as a substring, else `weekly` when a weekly keyword occurs, else
`monthly` when a monthly keyword occurs, else `none` — so daily is preferred
over weekly over monthly when keywords co-occur. -/
theorem claim9_cadence_priority (text : String) :
    (parseRepeatPattern text = some "daily" ↔
      ("毎日".toList <:+: text.toList ∨ "まいにち".toList <:+: text.toList)) ∧
    (parseRepeatPattern text = some "weekly" ↔
      (¬("毎日".toList <:+: text.toList ∨ "まいにち".toList <:+: text.toList) ∧
        ("毎週".toList <:+: text.toList ∨ "まいしゅう".toList <:+: text.toList))) ∧
    (parseRepeatPattern text = some "monthly" ↔
      (¬("毎日".toList <:+: text.toList ∨ "まいにち".toList <:+: text.toList) ∧
        ¬("毎週".toList <:+: text.toList ∨ "まいしゅう".toList <:+: text.toList) ∧
        ("毎月".toList <:+: text.toList ∨ "まいつき".toList <:+: text.toList))) ∧
    (parseRepeatPattern text = none ↔
      (¬("毎日".toList <:+: text.toList ∨ "まいにち".toList <:+: text.toList) ∧
        ¬("毎週".toList <:+: text.toList ∨ "まいしゅう".toList <:+: text.toList) ∧
        ¬("毎月".toList <:+: text.toList ∨ "まいつき".toList <:+: text.toList))) := by
  have e1 : ((strIncludes text "毎日" || strIncludes text "まいにち") = true) ↔
      ("毎日".toList <:+: text.toList ∨ "まいにち".toList <:+: text.toList) := by
    simp [strIncludes, hasSubstr_iff]
  have e2 : ((strIncludes text "毎週" || strIncludes text "まいしゅう") = true) ↔
      ("毎週".toList <:+: text.toList ∨ "まいしゅう".toList <:+: text.toList) := by
    simp [strIncludes, hasSubstr_iff]
  have e3 : ((strIncludes text "毎月" || strIncludes text "まいつき") = true) ↔
      ("毎月".toList <:+: text.toList ∨ "まいつき".toList <:+: text.toList) := by
    simp [strIncludes, hasSubstr_iff]
  unfold parseRepeatPattern
  by_cases h1 : "毎日".toList <:+: text.toList ∨ "まいにち".toList <:+: text.toList
  · rw [if_pos (e1.mpr h1)]
    exact ⟨iff_of_true rfl h1, iff_of_false (by decide) (fun hc => hc.1 h1),
      iff_of_false (by decide) (fun hc => hc.1 h1),
      iff_of_false (by decide) (fun hc => hc.1 h1)⟩
  · rw [if_neg (fun hc => h1 (e1.mp hc))]
    by_cases h2 : "毎週".toList <:+: text.toList ∨ "まいしゅう".toList <:+: text.toList
    · rw [if_pos (e2.mpr h2)]
      exact ⟨iff_of_false (by decide) h1, iff_of_true rfl ⟨h1, h2⟩,
        iff_of_false (by decide) (fun hc => hc.2.1 h2),
        iff_of_false (by decide) (fun hc => hc.2.1 h2)⟩
    · rw [if_neg (fun hc => h2 (e2.mp hc))]
      by_cases h3 : "毎月".toList <:+: text.toList ∨ "まいつき".toList <:+: text.toList
      · rw [if_pos (e3.mpr h3)]
        exact ⟨iff_of_false (by decide) h1,
          iff_of_false (by decide) (fun hc => h2 hc.2),
          iff_of_true rfl ⟨h1, h2, h3⟩,
          iff_of_false (by decide) (fun hc => hc.2.2 h3)⟩
      · rw [if_neg (fun hc => h3 (e3.mp hc))]
        exact ⟨iff_of_false (by decide) h1,
          iff_of_false (by decide) (fun hc => h2 hc.2),
          iff_of_false (by decide) (fun hc => h3 hc.2.2),
          iff_of_true rfl ⟨h1, h2, h3⟩⟩

theorem parseDateTime_date (dateStr : String) (timeStr : Option String) (now : Int) :
    (parseDateTime dateStr timeStr now).date = resolvedUtc dateStr timeStr now := by
  rw [parseDateTime_eq]
  split <;> rfl

/-- When the date phrase resolves to civil-today plus `k` days, the resolved
instant (viewed in JST) falls on that day with time of day 09:00 when no time
phrase is given. -/
theorem resolvedUtc_addDays {ph : String} {now k : Int}
    (h : parseDateStr ph (now + jstOffsetMs) = (now + jstOffsetMs) + k * msPerDay) :
    jsDay (resolvedUtc ph none now + jstOffsetMs) = jsDay (now + jstOffsetMs) + k ∧
    timeWithinDay (resolvedUtc ph none now + jstOffsetMs) = 9 * msPerHour := by
  unfold resolvedUtc
  rw [h]
  unfold jsSetHours parseTimeStr
  dsimp only
  unfold jsDay timeWithinDay msPerDay msPerHour msPerMinute jstOffsetMs
  omega

/-- C6: each recognized literal date phrase, in both spellings, with no time
phrase, resolves to civil-today plus its fixed day offset (+0, +1, +2, +7,
+14) at 09:00 JST exactly — the whole time-of-day offset is 9 h, so minutes,
seconds and sub-seconds are zero. -/
theorem claim6_literal_phrases (now : Int) :
    (jsDay ((parseDateTime "今日" none now).date + jstOffsetMs) =
        jsDay (now + jstOffsetMs) + 0 ∧
      timeWithinDay ((parseDateTime "今日" none now).date + jstOffsetMs) = 9 * msPerHour) ∧
    (jsDay ((parseDateTime "きょう" none now).date + jstOffsetMs) =
        jsDay (now + jstOffsetMs) + 0 ∧
      timeWithinDay ((parseDateTime "きょう" none now).date + jstOffsetMs) = 9 * msPerHour) ∧
    (jsDay ((parseDateTime "明日" none now).date + jstOffsetMs) =
        jsDay (now + jstOffsetMs) + 1 ∧
      timeWithinDay ((parseDateTime "明日" none now).date + jstOffsetMs) = 9 * msPerHour) ∧
    (jsDay ((parseDateTime "あした" none now).date + jstOffsetMs) =
        jsDay (now + jstOffsetMs) + 1 ∧
      timeWithinDay ((parseDateTime "あした" none now).date + jstOffsetMs) = 9 * msPerHour) ∧
    (jsDay ((parseDateTime "明後日" none now).date + jstOffsetMs) =
        jsDay (now + jstOffsetMs) + 2 ∧
      timeWithinDay ((parseDateTime "明後日" none now).date + jstOffsetMs) = 9 * msPerHour) ∧
    (jsDay ((parseDateTime "あさって" none now).date + jstOffsetMs) =
        jsDay (now + jstOffsetMs) + 2 ∧
      timeWithinDay ((parseDateTime "あさって" none now).date + jstOffsetMs) = 9 * msPerHour) ∧
    (jsDay ((parseDateTime "来週" none now).date + jstOffsetMs) =
        jsDay (now + jstOffsetMs) + 7 ∧
      timeWithinDay ((parseDateTime "来週" none now).date + jstOffsetMs) = 9 * msPerHour) ∧
    (jsDay ((parseDateTime "らいしゅう" none now).date + jstOffsetMs) =
        jsDay (now + jstOffsetMs) + 7 ∧
      timeWithinDay ((parseDateTime "らいしゅう" none now).date + jstOffsetMs) = 9 * msPerHour) ∧
    (jsDay ((parseDateTime "再来週" none now).date + jstOffsetMs) =
        jsDay (now + jstOffsetMs) + 14 ∧
      timeWithinDay ((parseDateTime "再来週" none now).date + jstOffsetMs) = 9 * msPerHour) ∧
    (jsDay ((parseDateTime "さらいしゅう" none now).date + jstOffsetMs) =
        jsDay (now + jstOffsetMs) + 14 ∧
      timeWithinDay ((parseDateTime "さらいしゅう" none now).date + jstOffsetMs) =
        9 * msPerHour) := by
  simp only [parseDateTime_date]
  refine ⟨?_, ?_, ?_, ?_, ?_, ?_, ?_, ?_, ?_, ?_⟩
  · exact resolvedUtc_addDays (by
      rw [show parseDateStr "今日" (now + jstOffsetMs) = now + jstOffsetMs from rfl]
      ring)
  · exact resolvedUtc_addDays (by
      rw [show parseDateStr "きょう" (now + jstOffsetMs) = now + jstOffsetMs from rfl]
      ring)
  · exact resolvedUtc_addDays (by
      rw [show parseDateStr "明日" (now + jstOffsetMs) =
          jsSetDate (now + jstOffsetMs) (getDate (now + jstOffsetMs) + 1) from rfl,
        jsSetDate_add])
  · exact resolvedUtc_addDays (by
      rw [show parseDateStr "あした" (now + jstOffsetMs) =
          jsSetDate (now + jstOffsetMs) (getDate (now + jstOffsetMs) + 1) from rfl,
        jsSetDate_add])
  · exact resolvedUtc_addDays (by
      rw [show parseDateStr "明後日" (now + jstOffsetMs) =
          jsSetDate (now + jstOffsetMs) (getDate (now + jstOffsetMs) + 2) from rfl,
        jsSetDate_add])
  · exact resolvedUtc_addDays (by
      rw [show parseDateStr "あさって" (now + jstOffsetMs) =
          jsSetDate (now + jstOffsetMs) (getDate (now + jstOffsetMs) + 2) from rfl,
        jsSetDate_add])
  · exact resolvedUtc_addDays (by
      rw [show parseDateStr "来週" (now + jstOffsetMs) =
          jsSetDate (now + jstOffsetMs) (getDate (now + jstOffsetMs) + 7) from rfl,
        jsSetDate_add])
  · exact resolvedUtc_addDays (by
      rw [show parseDateStr "らいしゅう" (now + jstOffsetMs) =
          jsSetDate (now + jstOffsetMs) (getDate (now + jstOffsetMs) + 7) from rfl,
        jsSetDate_add])
  · exact resolvedUtc_addDays (by
      rw [show parseDateStr "再来週" (now + jstOffsetMs) =
          jsSetDate (now + jstOffsetMs) (getDate (now + jstOffsetMs) + 14) from rfl,
        jsSetDate_add])
  · exact resolvedUtc_addDays (by
      rw [show parseDateStr "さらいしゅう" (now + jstOffsetMs) =
          jsSetDate (now + jstOffsetMs) (getDate (now + jstOffsetMs) + 14) from rfl,
        jsSetDate_add])

/-- C2: evaluation of the code at the failing input.  With reference instant
2025-01-31 12:00 JST, the phrase `2月15日` (February 15) resolves to civil
2025-03-15: `setMonth` runs while the day-of-month is still 31, so Jan 31
becomes Feb 31 = Mar 3, and `setDate(15)` then lands in March — not the
February 15 required by the spec's month-day rule. -/
theorem claim2_code_eval :
    civilFromDays (jsDay ((parseDateTime "2月15日" none 1738292400000).date + jstOffsetMs)) =
      ⟨2025, 3, 15⟩ ∧
    (parseDateTime "2月15日" none 1738292400000).success = true := by
  constructor
  · decide
  · decide

theorem matchNumSuffix_def (cs suffix : List Char) :
    matchNumSuffix cs suffix =
      if (cs.span Char.isDigit).1 ≠ [] ∧ (cs.span Char.isDigit).2 = suffix then
        some (digitsToNat (cs.span Char.isDigit).1)
      else none := rfl

theorem span_digits (ds : List Char) (c : Char) (rs : List Char)
    (hdig : ∀ x ∈ ds, x.isDigit = true) (hc : c.isDigit = false) :
    (ds ++ c :: rs).span Char.isDigit = (ds, c :: rs) := by
  induction ds with
  | nil =>
    simp [List.span_eq_take_drop, hc]
  | cons a t ih =>
    have ha : a.isDigit = true := hdig a (by simp)
    have ht : ∀ x ∈ t, x.isDigit = true := fun x hx => hdig x (by simp [hx])
    have ih' := ih ht
    rw [List.span_eq_take_drop] at ih' ⊢
    rw [Prod.mk.injEq] at ih'
    simp [List.takeWhile_cons, List.dropWhile_cons, ha, ih'.1, ih'.2]

theorem matchNumSuffix_day (ds : List Char) (hne : ds ≠ [])
    (hdig : ∀ x ∈ ds, x.isDigit = true) :
    matchNumSuffix (ds ++ ['日']) ['日'] = some (digitsToNat ds) := by
  rw [matchNumSuffix_def, span_digits ds '日' [] hdig (by decide)]
  dsimp only
  rw [if_pos ⟨hne, rfl⟩]

theorem matchNumSuffix_day_after (ds : List Char) (_hne : ds ≠ [])
    (hdig : ∀ x ∈ ds, x.isDigit = true) :
    matchNumSuffix (ds ++ ['日']) ['日', '後'] = none := by
  rw [matchNumSuffix_def, span_digits ds '日' [] hdig (by decide)]
  dsimp only
  have hcond : ¬(ds ≠ [] ∧ (['日'] : List Char) = ['日', '後']) :=
    fun hcon => absurd hcon.2 (by decide)
  rw [if_neg hcond]

theorem mk_digits_ne {ds rest : List Char} (hne : ds ≠ [])
    (hdig : ∀ x ∈ ds, x.isDigit = true) {s : String}
    (hs : ∀ c ∈ s.data.head?, c.isDigit = false) : String.mk (ds ++ rest) ≠ s := by
  intro h
  match ds, hne with
  | a :: t, _ =>
    have hdata := congrArg String.data h
    simp only [String.data] at hdata
    have hhead : s.data.head? = some a := by
      rw [← hdata]
      rfl
    have hfalse : a.isDigit = false := hs a (by rw [hhead]; rfl)
    have htrue : a.isDigit = true := hdig a (by simp)
    rw [htrue] at hfalse
    exact absurd hfalse (by decide)

theorem parseDateStr_dayOnly (ds : List Char) (t : Int) (hne : ds ≠ [])
    (hdig : ∀ x ∈ ds, x.isDigit = true) :
    parseDateStr (String.mk (ds ++ ['日'])) t =
      (if jsSetDate t (digitsToNat ds : Int) < t then
        jsSetMonth (jsSetDate t (digitsToNat ds : Int))
          (getMonth0 (jsSetDate t (digitsToNat ds : Int)) + 1)
      else jsSetDate t (digitsToNat ds : Int)) := by
  have h01 : String.mk (ds ++ ['日']) ≠ "今日" := mk_digits_ne hne hdig (by decide)
  have h02 : String.mk (ds ++ ['日']) ≠ "きょう" := mk_digits_ne hne hdig (by decide)
  have h03 : String.mk (ds ++ ['日']) ≠ "明日" := mk_digits_ne hne hdig (by decide)
  have h04 : String.mk (ds ++ ['日']) ≠ "あした" := mk_digits_ne hne hdig (by decide)
  have h05 : String.mk (ds ++ ['日']) ≠ "明後日" := mk_digits_ne hne hdig (by decide)
  have h06 : String.mk (ds ++ ['日']) ≠ "あさって" := mk_digits_ne hne hdig (by decide)
  have h07 : String.mk (ds ++ ['日']) ≠ "来週" := mk_digits_ne hne hdig (by decide)
  have h08 : String.mk (ds ++ ['日']) ≠ "らいしゅう" := mk_digits_ne hne hdig (by decide)
  have h09 : String.mk (ds ++ ['日']) ≠ "再来週" := mk_digits_ne hne hdig (by decide)
  have h10 : String.mk (ds ++ ['日']) ≠ "さらいしゅう" := mk_digits_ne hne hdig (by decide)
  unfold parseDateStr
  rw [if_neg (not_or.mpr ⟨h01, h02⟩), if_neg (not_or.mpr ⟨h03, h04⟩),
    if_neg (not_or.mpr ⟨h05, h06⟩), if_neg (not_or.mpr ⟨h07, h08⟩),
    if_neg (not_or.mpr ⟨h09, h10⟩)]
  have etl : (String.mk (ds ++ ['日'])).toList = ds ++ ['日'] := rfl
  rw [etl, matchNumSuffix_day_after ds hne hdig, matchNumSuffix_day ds hne hdig]

theorem jsSetDate_fields {t : Int} (N : Int) (hd1 : 1 ≤ N)
    (hvalid : N ≤ daysInMonth (civilFromDays (jsDay t)).year (civilFromDays (jsDay t)).month) :
    civilFromDays (jsDay (jsSetDate t N)) =
      ⟨(civilFromDays (jsDay t)).year, (civilFromDays (jsDay t)).month, N⟩ ∧
    timeWithinDay (jsSetDate t N) = timeWithinDay t := by
  obtain ⟨hm1, hm2, hb1, hb2⟩ := fields_bounds (jsDay t)
  obtain ⟨-, h0, h1⟩ := time_decomp t
  unfold jsSetDate getFullYear getMonth0 dateFields
  rw [makeDay_eq _ _ (by omega) (by omega)]
  have e1 : (civilFromDays (jsDay t)).month - 1 + 1 = (civilFromDays (jsDay t)).month := by
    ring
  rw [e1]
  obtain ⟨hj, htw⟩ :=
    @jsDay_mk (daysFromCivil (civilFromDays (jsDay t)).year (civilFromDays (jsDay t)).month N)
      (timeWithinDay t) h0 h1
  rw [hj, htw]
  exact ⟨civilFromDays_daysFromCivil hm1 hm2 hd1 hvalid, rfl⟩

theorem jsSetDate_lt {t N : Int} :
    jsSetDate t N < t ↔ N < (civilFromDays (jsDay t)).day := by
  obtain ⟨hm1, hm2, hb1, hb2⟩ := fields_bounds (jsDay t)
  obtain ⟨ht, h0, h1⟩ := time_decomp t
  unfold jsSetDate getFullYear getMonth0 dateFields
  rw [makeDay_eq _ _ (by omega) (by omega)]
  have e1 : (civilFromDays (jsDay t)).month - 1 + 1 = (civilFromDays (jsDay t)).month := by
    ring
  rw [e1]
  have hlin := daysFromCivil_add (civilFromDays (jsDay t)).year (civilFromDays (jsDay t)).month
    (civilFromDays (jsDay t)).day (N - (civilFromDays (jsDay t)).day)
  have e2 : (civilFromDays (jsDay t)).day + (N - (civilFromDays (jsDay t)).day) = N := by ring
  rw [e2] at hlin
  rw [hlin, daysFromCivil_civilFromDays (jsDay t)]
  unfold msPerDay timeWithinDay jsDay at *
  omega

theorem jsSetHours9_jst (x : Int) :
    jsDay (jsSetHours x 9 0 - jstOffsetMs + jstOffsetMs) = jsDay x ∧
    timeWithinDay (jsSetHours x 9 0 - jstOffsetMs + jstOffsetMs) = 9 * msPerHour := by
  unfold jsSetHours jsDay timeWithinDay msPerDay msPerHour msPerMinute jstOffsetMs
  omega

/-- C5 counterexample: with reference instant 2025-04-10 12:00 JST, the
phrase `31日` resolves to civil 2025-05-01 — April has no day 31, so
`setDate(31)` overflows into May — refuting the claim as stated for all
positive `N` (it demands day-of-month 31 in the current civil month,
April). -/
theorem claim5_counterexample :
    civilFromDays (jsDay ((parseDateTime "31日" none 1744254000000).date + jstOffsetMs)) =
      ⟨2025, 5, 1⟩ ∧
    (civilFromDays (jsDay (1744254000000 + jstOffsetMs))).month = 4 := by
  constructor
  · decide
  · decide

/-- C5 (amended): for `N` a valid day of the current civil month — and, when
the roll to the next month happens, also a valid day of that next month —
resolving `N日` yields day `N` of the current civil month when that date is
not strictly before civil-today, and day `N` of the immediately following
civil month otherwise, at the default time 09:00. -/
theorem claim5_day_of_month (now : Int) (ds : List Char) (hne : ds ≠ [])
    (hdig : ∀ x ∈ ds, x.isDigit = true) (hN1 : 1 ≤ (digitsToNat ds : Int))
    (hvalid : (digitsToNat ds : Int) ≤
      daysInMonth (civilFromDays (jsDay (now + jstOffsetMs))).year
        (civilFromDays (jsDay (now + jstOffsetMs))).month)
    (hroll : (digitsToNat ds : Int) < (civilFromDays (jsDay (now + jstOffsetMs))).day →
      (digitsToNat ds : Int) ≤
        daysInMonth
          (nextYM (civilFromDays (jsDay (now + jstOffsetMs))).year
            (civilFromDays (jsDay (now + jstOffsetMs))).month).1
          (nextYM (civilFromDays (jsDay (now + jstOffsetMs))).year
            (civilFromDays (jsDay (now + jstOffsetMs))).month).2) :
    ((civilFromDays (jsDay (now + jstOffsetMs))).day ≤ (digitsToNat ds : Int) →
      civilFromDays
          (jsDay ((parseDateTime (String.mk (ds ++ ['日'])) none now).date + jstOffsetMs)) =
        ⟨(civilFromDays (jsDay (now + jstOffsetMs))).year,
         (civilFromDays (jsDay (now + jstOffsetMs))).month, (digitsToNat ds : Int)⟩) ∧
    ((digitsToNat ds : Int) < (civilFromDays (jsDay (now + jstOffsetMs))).day →
      civilFromDays
          (jsDay ((parseDateTime (String.mk (ds ++ ['日'])) none now).date + jstOffsetMs)) =
        ⟨(nextYM (civilFromDays (jsDay (now + jstOffsetMs))).year
            (civilFromDays (jsDay (now + jstOffsetMs))).month).1,
         (nextYM (civilFromDays (jsDay (now + jstOffsetMs))).year
            (civilFromDays (jsDay (now + jstOffsetMs))).month).2,
         (digitsToNat ds : Int)⟩) ∧
    timeWithinDay ((parseDateTime (String.mk (ds ++ ['日'])) none now).date + jstOffsetMs) =
      9 * msPerHour := by
  rw [parseDateTime_date]
  unfold resolvedUtc
  rw [parseDateStr_dayOnly ds (now + jstOffsetMs) hne hdig]
  have hts : parseTimeStr none = (9, 0) := rfl
  rw [hts]
  dsimp only
  obtain ⟨hfield, htod⟩ := jsSetDate_fields (t := now + jstOffsetMs) (digitsToNat ds : Int)
    hN1 hvalid
  by_cases hc : jsSetDate (now + jstOffsetMs) (digitsToNat ds : Int) < now + jstOffsetMs
  · rw [if_pos hc]
    have hlt : (digitsToNat ds : Int) < (civilFromDays (jsDay (now + jstOffsetMs))).day :=
      jsSetDate_lt.mp hc
    obtain ⟨hstep, hstod⟩ := jsSetMonth_next
      (t := jsSetDate (now + jstOffsetMs) (digitsToNat ds : Int))
      (by rw [hfield]; exact hroll hlt)
    rw [hfield] at hstep
    obtain ⟨hj9, ht9⟩ := jsSetHours9_jst
      (jsSetMonth (jsSetDate (now + jstOffsetMs) (digitsToNat ds : Int))
        (getMonth0 (jsSetDate (now + jstOffsetMs) (digitsToNat ds : Int)) + 1))
    rw [hj9, ht9]
    refine ⟨fun hge => absurd hlt (by omega), fun _ => ?_, rfl⟩
    exact hstep
  · rw [if_neg hc]
    have hge : (civilFromDays (jsDay (now + jstOffsetMs))).day ≤ (digitsToNat ds : Int) := by
      have hnot : ¬((digitsToNat ds : Int) < (civilFromDays (jsDay (now + jstOffsetMs))).day) :=
        fun hl => hc (jsSetDate_lt.mpr hl)
      omega
    obtain ⟨hj9, ht9⟩ := jsSetHours9_jst (jsSetDate (now + jstOffsetMs) (digitsToNat ds : Int))
    rw [hj9, ht9]
    exact ⟨fun _ => hfield, fun hlt => absurd hlt (by omega), rfl⟩

theorem claim5_witness :
    String.mk (['1', '5'] ++ ['日']) = "15日" ∧
    civilFromDays
        (jsDay ((parseDateTime (String.mk (['1', '5'] ++ ['日'])) none 1760151600000).date +
          jstOffsetMs)) =
      ⟨(civilFromDays (jsDay (1760151600000 + jstOffsetMs))).year,
       (civilFromDays (jsDay (1760151600000 + jstOffsetMs))).month,
       (digitsToNat ['1', '5'] : Int)⟩ :=
  ⟨rfl,
    (claim5_day_of_month 1760151600000 ['1', '5'] (by decide) (by decide) (by decide)
      (by decide) (fun h => absurd h (by decide))).1 (by decide)⟩

theorem nextYM_arith (y n' : Int) (_h0 : 0 ≤ n') :
    nextYM (y + n' / 12) (n' % 12 + 1) = (y + (n' + 1) / 12, (n' + 1) % 12 + 1) := by
  unfold nextYM
  by_cases h : n' % 12 + 1 = 12
  · rw [if_pos h, Prod.mk.injEq]
    constructor <;> omega
  · rw [if_neg h, Prod.mk.injEq]
    constructor <;> omega

theorem advanceMonthly_iter (t : Int) (n : Nat)
    (hvalid : ∀ k : Nat, k < n →
      (civilFromDays (jsDay t)).day ≤
        daysInMonth
          ((civilFromDays (jsDay t)).year +
            ((civilFromDays (jsDay t)).month - 1 + ((k : Int) + 1)) / 12)
          (((civilFromDays (jsDay t)).month - 1 + ((k : Int) + 1)) % 12 + 1)) :
    civilFromDays (jsDay (advanceMonthly^[n] t)) =
      ⟨(civilFromDays (jsDay t)).year +
          ((civilFromDays (jsDay t)).month - 1 + (n : Int)) / 12,
       ((civilFromDays (jsDay t)).month - 1 + (n : Int)) % 12 + 1,
       (civilFromDays (jsDay t)).day⟩ ∧
    timeWithinDay (advanceMonthly^[n] t) = timeWithinDay t := by
  obtain ⟨hm1, hm2, hd1, hd2⟩ := fields_bounds (jsDay t)
  induction n with
  | zero =>
    rw [Function.iterate_zero_apply]
    constructor
    · have e1 : (civilFromDays (jsDay t)).month - 1 + ((0 : Nat) : Int) =
          (civilFromDays (jsDay t)).month - 1 := by
        push_cast
        ring
      rw [e1]
      have e2 : ((civilFromDays (jsDay t)).month - 1) / 12 = 0 := by omega
      have e3 : ((civilFromDays (jsDay t)).month - 1) % 12 =
          (civilFromDays (jsDay t)).month - 1 := by omega
      rw [e2, e3]
      have e4 : (civilFromDays (jsDay t)).year + 0 = (civilFromDays (jsDay t)).year := by ring
      have e5 : (civilFromDays (jsDay t)).month - 1 + 1 = (civilFromDays (jsDay t)).month := by
        ring
      rw [e4, e5]
    · rfl
  | succ k ih =>
    obtain ⟨ihf, ihtod⟩ := ih (fun j hj => hvalid j (by omega))
    rw [Function.iterate_succ_apply']
    have hadv : advanceMonthly (advanceMonthly^[k] t) =
        jsSetMonth (advanceMonthly^[k] t) (getMonth0 (advanceMonthly^[k] t) + 1) := rfl
    rw [hadv]
    have hv := hvalid k (by omega)
    obtain ⟨hstep, hstod⟩ := jsSetMonth_next (t := advanceMonthly^[k] t) (by
      rw [ihf]
      dsimp only
      rw [nextYM_arith _ _ (by omega)]
      dsimp only
      have ea : (civilFromDays (jsDay t)).month - 1 + (k : Int) + 1 =
          (civilFromDays (jsDay t)).month - 1 + ((k : Int) + 1) := by ring
      rw [ea]
      exact hv)
    rw [ihf] at hstep
    dsimp only at hstep
    rw [nextYM_arith _ _ (by omega)] at hstep
    dsimp only at hstep
    constructor
    · rw [hstep, Civil.mk.injEq]
      refine ⟨?_, ?_, rfl⟩ <;> push_cast <;> omega
    · rw [hstod, ihtod]

/-- C8: applying the monthly advance of `rescheduleRepeatingReminder` twelve
times lands on the same day-of-month exactly one civil year later (and at
the same time of day), provided the starting day-of-month exists in every
intervening month — the day-of-month rollover edge case barred by the
claim. -/
theorem claim8_monthly_year (t : Int)
    (hvalid : ∀ k : Nat, k < 12 →
      (civilFromDays (jsDay t)).day ≤
        daysInMonth
          ((civilFromDays (jsDay t)).year +
            ((civilFromDays (jsDay t)).month - 1 + ((k : Int) + 1)) / 12)
          (((civilFromDays (jsDay t)).month - 1 + ((k : Int) + 1)) % 12 + 1)) :
    (∀ s : Int, advanceRemindAt s (some "monthly") = some (advanceMonthly s)) ∧
    civilFromDays (jsDay (advanceMonthly^[12] t)) =
      ⟨(civilFromDays (jsDay t)).year + 1, (civilFromDays (jsDay t)).month,
       (civilFromDays (jsDay t)).day⟩ ∧
    timeWithinDay (advanceMonthly^[12] t) = timeWithinDay t := by
  obtain ⟨hm1, hm2, hd1, hd2⟩ := fields_bounds (jsDay t)
  obtain ⟨hfields, htod⟩ := advanceMonthly_iter t 12 hvalid
  refine ⟨fun s => rfl, ?_, htod⟩
  rw [hfields, Civil.mk.injEq]
  refine ⟨?_, ?_, rfl⟩
  · push_cast
    omega
  · push_cast
    omega

theorem claim8_witness :
    civilFromDays (jsDay (advanceMonthly^[12] 1736937000000)) =
      ⟨(civilFromDays (jsDay 1736937000000)).year + 1,
       (civilFromDays (jsDay 1736937000000)).month,
       (civilFromDays (jsDay 1736937000000)).day⟩ :=
  (claim8_monthly_year 1736937000000 (by decide)).2.1
